import Mathlib

/-!
# Verification of the cluster-turndown EKS provider core

Shallow embedding of `pkg/turndown/provider/eksprovider.go`:

* the capacity codec `flatRange` / `expandRange` (Go `fmt.Sprintf("%d/%d/%d", ...)`
  and `strings.Split` + `strconv.Atoi` + `int32` conversion), and
* the batch orchestration `SetNodePoolSizes` / `ResetNodePoolSizes` over an
  injected cluster provider, modelled as a response oracle plus a trace of the
  provider calls issued.

Go machine integers are modelled as `Int` with explicit wraparound
(`toInt32`); a Go runtime panic (out-of-range slice index) is modelled as
`Option.none` in the result.
-/

set_option autoImplicit false

namespace ClusterTurndown

/-- The well-known tag key `cluster.turndown.previous`. -/
def EKSNodeGroupPreviousKey : String := "cluster.turndown.previous"

/-- Go digit rendering: the decimal digit character for `n < 10`
(Go's `fmt` integer formatting emits characters from the table "0123456789"). -/
def natToDigitChar (n : Nat) : Char :=
  match n with
  | 0 => '0' | 1 => '1' | 2 => '2' | 3 => '3' | 4 => '4'
  | 5 => '5' | 6 => '6' | 7 => '7' | 8 => '8' | _ => '9'

/-- Decimal rendering of a natural number, most significant digit first,
no leading zeros ("0" for 0) — the digit sequence Go's `%d` verb prints. -/
def natDigits (n : Nat) : List Char :=
  if _h : n < 10 then [natToDigitChar n]
  else natDigits (n / 10) ++ [natToDigitChar (n % 10)]
termination_by n
decreasing_by
  exact Nat.div_lt_self (by omega) (by omega)

/-- Decimal rendering of an integer: Go's `%d` formatting
(a `-` sign followed by the digits of the absolute value when negative). -/
def intChars (z : Int) : List Char :=
  if z < 0 then '-' :: natDigits z.natAbs else natDigits z.toNat

/-- `fmt.Sprintf("%d/%d/%d", min, max, count)` — the `flatRange` encoder from
eksprovider.go. -/
def flatRange (mn mx cnt : Int) : String :=
  ⟨intChars mn ++ '/' :: (intChars mx ++ '/' :: intChars cnt)⟩

/-- The numeric value of a decimal digit character, `none` for a non-digit —
Go's per-character test `'0' <= c && c <= '9'` inside `strconv`. -/
def digitVal (c : Char) : Option Nat :=
  if 48 ≤ c.toNat ∧ c.toNat ≤ 57 then some (c.toNat - 48) else none

/-- Accumulating decimal parse of a digit string, failing on any non-digit —
the digit loop of Go's `strconv.ParseInt`/`Atoi`. -/
def parseDigitsAux (acc : Nat) : List Char → Option Nat
  | [] => some acc
  | c :: cs =>
    match digitVal c with
    | none => none
    | some d => parseDigitsAux (10 * acc + d) cs

/-- Parse a non-empty all-digit string; the empty string fails
(Go: `strconv` rejects an empty digit sequence). -/
def parseDigits : List Char → Option Nat
  | [] => none
  | c :: cs => parseDigitsAux 0 (c :: cs)

/-- Go's `strconv.Atoi` on a 64-bit platform: optional single `+`/`-` sign,
a non-empty run of decimal digits, value within the `int64` range; any
failure (syntax or range) makes `Atoi` return a non-nil error, modelled
here as `none`. -/
def goAtoiChars (cs : List Char) : Option Int :=
  match cs with
  | [] => none
  | c :: rest =>
    let p : Bool × List Char :=
      if c = '-' then (true, rest)
      else if c = '+' then (false, rest)
      else (false, c :: rest)
    match parseDigits p.2 with
    | none => none
    | some n =>
      let v : Int := if p.1 then -(n : Int) else (n : Int)
      if v < -(2 ^ 63) ∨ 2 ^ 63 - 1 < v then none else some v

/-- `strconv.Atoi` on a `String`. -/
def goAtoi (s : String) : Option Int := goAtoiChars s.data

/-- Go's `strings.Split` with the one-character separator `sep`; the result
always has at least one element and `""` splits to `[""]`. -/
def splitOnChar (sep : Char) : List Char → List (List Char)
  | [] => [[]]
  | c :: cs =>
    if c = sep then [] :: splitOnChar sep cs
    else
      match splitOnChar sep cs with
      | [] => [[c]]
      | h :: t => (c :: h) :: t

/-- Go's `int32(x)` conversion of a 64-bit `int`: two's-complement
truncation to the low 32 bits. -/
def toInt32 (z : Int) : Int := (z + 2 ^ 31) % 2 ^ 32 - 2 ^ 31

/-- The `expandRange` decoder from eksprovider.go.

`strings.Split(s, "/")`, then `values[2]` is read FIRST: when the split has
fewer than three fields this Go slice index is out of range and the program
panics — modelled as `none`.  Otherwise: `count` must parse or the sentinel
`(-1,-1,-1)` is returned; a failing `min` or `max` parse independently falls
back to `count`; all three results pass through the `int32` conversion. -/
def expandRange (s : String) : Option (Int × Int × Int) :=
  match splitOnChar '/' s.data with
  | v0 :: v1 :: v2 :: _ =>
    match goAtoiChars v2 with
    | none => some (-1, -1, -1)
    | some cnt =>
      let mn := (goAtoiChars v0).getD cnt
      let mx := (goAtoiChars v1).getD cnt
      some (toInt32 mn, toInt32 mx, toInt32 cnt)
  | _ => none

/-- A node pool value as handed to the provider over the `cp.NodePool`
interface: `Name()`, `MinNodes()`, `MaxNodes()`, `NodeCount()`, `Tags()`.
Tags are modelled as an association list (the Go map has unique keys). -/
structure NodePool where
  name : String
  minNodes : Int
  maxNodes : Int
  nodeCount : Int
  tags : List (String × String)
deriving DecidableEq, Repr

/-- Go map read `tags[key]`: the value stored under `key`, if any. -/
def lookupTag : List (String × String) → String → Option String
  | [], _ => none
  | (k, v) :: rest, key => if k = key then some v else lookupTag rest key

/-- A call issued to the injected Cluster Provider by the two batch
operations: `UpdateNodePoolSize`, `CreateOrUpdateTags` or `DeleteTags`,
with the arguments the Go code passes. -/
inductive PCall where
  | updateSize (pool : String) (size : Int)
  | createOrUpdateTags (pool : String) (overwrite : Bool) (tags : List (String × String))
  | deleteTags (pool : String) (keys : List String)
deriving DecidableEq, Repr

/-- The Cluster Provider's behaviour, abstracted: each call either succeeds
(`none`) or returns an error message (`some e`). -/
def Responder : Type := PCall → Option String

/-- The loop body of `SetNodePoolSizes`: for each pool in order, compute
`rng := flatRange(min, max, count)` from the pool's current fields, call
`UpdateNodePoolSize(pool, size)` (returning its error at once on failure),
then `CreateOrUpdateTags(pool, overwrite=false, {previousKey: rng})`
(returning its error at once on failure).  The result pairs the returned
error (`none` = nil) with the trace of provider calls issued, in order. -/
def setLoop (resp : Responder) (size : Int) : List NodePool → Option String × List PCall
  | [] => (none, [])
  | np :: rest =>
    let rng := flatRange np.minNodes np.maxNodes np.nodeCount
    let c1 := PCall.updateSize np.name size
    match resp c1 with
    | some e => (some e, [c1])
    | none =>
      let c2 := PCall.createOrUpdateTags np.name false [(EKSNodeGroupPreviousKey, rng)]
      match resp c2 with
      | some e => (some e, [c1, c2])
      | none =>
        let r := setLoop resp size rest
        (r.1, c1 :: c2 :: r.2)

/-- `SetNodePoolSizes(nodePools, size)` from eksprovider.go: explicit no-op
short circuit on the empty list, otherwise the sequential loop. -/
def SetNodePoolSizes (resp : Responder) (nodePools : List NodePool) (size : Int) :
    Option String × List PCall :=
  if nodePools.isEmpty then (none, []) else setLoop resp size nodePools

/-- The loop body of `ResetNodePoolSizes`: for each pool in order, read
`tags[previousKey]`; if absent, log and `continue` (no provider call).
Otherwise decode it with `expandRange` — a decode that panics (fewer than
three fields) propagates as `none` for the whole batch; a decoded
`count < 0` logs and `continue`s, leaving the tag in place.  Otherwise
`UpdateNodePoolSize(pool, count)` then `DeleteTags(pool, [previousKey])`,
each returning its error at once on failure. -/
def resetLoop (resp : Responder) : List NodePool → Option (Option String × List PCall)
  | [] => some (none, [])
  | np :: rest =>
    match lookupTag np.tags EKSNodeGroupPreviousKey with
    | none => resetLoop resp rest
    | some rangeTag =>
      match expandRange rangeTag with
      | none => none
      | some (_, _, cnt) =>
        if cnt < 0 then resetLoop resp rest
        else
          let c1 := PCall.updateSize np.name cnt
          match resp c1 with
          | some e => some (some e, [c1])
          | none =>
            let c2 := PCall.deleteTags np.name [EKSNodeGroupPreviousKey]
            match resp c2 with
            | some e => some (some e, [c1, c2])
            | none =>
              match resetLoop resp rest with
              | none => none
              | some r => some (r.1, c1 :: c2 :: r.2)

/-- `ResetNodePoolSizes(nodePools)` from eksprovider.go: explicit no-op
short circuit on the empty list, otherwise the sequential loop.  The outer
`Option` models a Go panic inside `expandRange`. -/
def ResetNodePoolSizes (resp : Responder) (nodePools : List NodePool) :
    Option (Option String × List PCall) :=
  if nodePools.isEmpty then some (none, []) else resetLoop resp nodePools

/-! Concrete fixtures used to instantiate the batch theorems. -/

/-- A provider on which every call succeeds. -/
def respAllOK : Responder := fun _ => none

/-- A provider that fails only the resize of pool `"B"` to size `0`. -/
def respFailB : Responder := fun c =>
  if c = PCall.updateSize "B" 0 then some "boom" else none

/-- A provider that fails only the resize of pool `"B"` to size `2`. -/
def respFailResize : Responder := fun c =>
  if c = PCall.updateSize "B" 2 then some "resize-fail" else none

/-- A provider that fails only the marker-tag deletion on pool `"B"`. -/
def respFailDelete : Responder := fun c =>
  if c = PCall.deleteTags "B" [EKSNodeGroupPreviousKey] then some "delete-fail" else none

/-- A pool without a capacity marker. -/
def poolA : NodePool := ⟨"A", 1, 5, 3, []⟩

/-- A second unmarked pool. -/
def poolB : NodePool := ⟨"B", 2, 8, 4, []⟩

/-- A third unmarked pool. -/
def poolC : NodePool := ⟨"C", 0, 9, 1, []⟩

/-- A pool carrying the capacity marker `"1/5/2"`. -/
def poolMarked : NodePool := ⟨"B", 2, 8, 4, [(EKSNodeGroupPreviousKey, "1/5/2")]⟩

/-- A pool carrying an all-negative capacity marker (each of the three
slash-separated fields is `"-5"`). -/
def poolNegMarked : NodePool := ⟨"N", 0, 0, 0, [(EKSNodeGroupPreviousKey, "-5/-5/-5")]⟩

end ClusterTurndown

namespace ClusterTurndown

/-! ## Codec lemmas -/

lemma digitVal_natToDigitChar (d : Nat) (h : d < 10) : digitVal (natToDigitChar d) = some d := by
  unfold natToDigitChar
  split <;> simp_all [digitVal]
  omega

lemma natToDigitChar_toNat_range (d : Nat) :
    48 ≤ (natToDigitChar d).toNat ∧ (natToDigitChar d).toNat ≤ 57 := by
  unfold natToDigitChar
  split <;> decide

lemma natDigits_ne_nil (n : Nat) : natDigits n ≠ [] := by
  unfold natDigits
  split
  · simp
  · simp

lemma mem_natDigits (n : Nat) : ∀ c ∈ natDigits n, ∃ d, c = natToDigitChar d := by
  induction n using natDigits.induct with
  | case1 n h =>
    rw [natDigits]
    simp [h]
  | case2 n h ih =>
    rw [natDigits]
    simp only [h, dite_false]
    intro c hc
    rcases List.mem_append.mp hc with h1 | h2
    · exact ih c h1
    · simp at h2
      exact ⟨n % 10, h2⟩

lemma parseDigitsAux_append (l1 l2 : List Char) : ∀ acc,
    parseDigitsAux acc (l1 ++ l2) =
      match parseDigitsAux acc l1 with
      | none => none
      | some a => parseDigitsAux a l2 := by
  induction l1 with
  | nil => intro acc; rfl
  | cons c cs ih =>
    intro acc
    simp only [List.cons_append, parseDigitsAux]
    cases digitVal c with
    | none => rfl
    | some d => exact ih _

lemma parseDigitsAux_natDigits (n : Nat) : ∀ acc,
    parseDigitsAux acc (natDigits n) = some (acc * 10 ^ (natDigits n).length + n) := by
  induction n using natDigits.induct with
  | case1 n h =>
    intro acc
    rw [natDigits]
    simp only [h, dite_true]
    simp [parseDigitsAux, digitVal_natToDigitChar n h]
    ring
  | case2 n h ih =>
    intro acc
    rw [natDigits]
    simp only [h, dite_false]
    rw [parseDigitsAux_append]
    rw [ih acc]
    simp only [parseDigitsAux, digitVal_natToDigitChar (n % 10) (Nat.mod_lt n (by omega))]
    simp only [List.length_append, List.length_cons, List.length_nil]
    rw [pow_succ]
    congr 1
    calc 10 * (acc * 10 ^ (natDigits (n / 10)).length + n / 10) + n % 10
        = acc * (10 ^ (natDigits (n / 10)).length * 10) + (10 * (n / 10) + n % 10) := by ring
      _ = acc * (10 ^ (natDigits (n / 10)).length * 10) + n := by rw [Nat.div_add_mod]

lemma parseDigits_natDigits (n : Nat) : parseDigits (natDigits n) = some n := by
  cases h : natDigits n with
  | nil => exact absurd h (natDigits_ne_nil n)
  | cons c cs =>
    have h2 := parseDigitsAux_natDigits n 0
    rw [h] at h2
    simpa [parseDigits] using h2

lemma natToDigitChar_ne_sep (d : Nat) : natToDigitChar d ≠ '/' := by
  intro h
  have h2 := (natToDigitChar_toNat_range d).1
  rw [h] at h2
  exact absurd h2 (by decide)

lemma natToDigitChar_ne_minus (d : Nat) : natToDigitChar d ≠ '-' := by
  intro h
  have h2 := (natToDigitChar_toNat_range d).1
  rw [h] at h2
  exact absurd h2 (by decide)

lemma natToDigitChar_ne_plus (d : Nat) : natToDigitChar d ≠ '+' := by
  intro h
  have h2 := (natToDigitChar_toNat_range d).1
  rw [h] at h2
  exact absurd h2 (by decide)

lemma sep_not_mem_natDigits (n : Nat) : '/' ∉ natDigits n := by
  intro hmem
  obtain ⟨d, hd⟩ := mem_natDigits n '/' hmem
  exact natToDigitChar_ne_sep d hd.symm

lemma sep_not_mem_intChars (z : Int) : '/' ∉ intChars z := by
  unfold intChars
  split
  · intro hmem
    rcases List.mem_cons.mp hmem with h | h
    · exact absurd h.symm (by decide)
    · exact sep_not_mem_natDigits _ h
  · exact sep_not_mem_natDigits _

lemma goAtoiChars_natDigits (n : Nat) (h : (n : Int) ≤ 2 ^ 63 - 1) :
    goAtoiChars (natDigits n) = some (n : Int) := by
  cases hd : natDigits n with
  | nil => exact absurd hd (natDigits_ne_nil n)
  | cons c cs =>
    obtain ⟨d, rfl⟩ := mem_natDigits n c (hd ▸ List.mem_cons_self c cs)
    have hp : parseDigits (natToDigitChar d :: cs) = some n := hd ▸ parseDigits_natDigits n
    simp only [goAtoiChars, natToDigitChar_ne_minus d, natToDigitChar_ne_plus d,
      if_false, hp]
    have hr : ¬((n : Int) < -(2 ^ 63) ∨ 2 ^ 63 - 1 < (n : Int)) := by omega
    simp [hr]
    omega

lemma goAtoiChars_intChars (z : Int) (h1 : -(2 ^ 63) ≤ z) (h2 : z ≤ 2 ^ 63 - 1) :
    goAtoiChars (intChars z) = some z := by
  unfold intChars
  by_cases hz : z < 0
  · simp only [hz, if_true]
    have hp : parseDigits (natDigits z.natAbs) = some z.natAbs := parseDigits_natDigits _
    cases hd : natDigits z.natAbs with
    | nil => exact absurd hd (natDigits_ne_nil _)
    | cons c cs =>
      rw [hd] at hp
      simp only [goAtoiChars, if_true, hp]
      have hr : ¬(-(z.natAbs : Int) < -(2 ^ 63) ∨ 2 ^ 63 - 1 < -(z.natAbs : Int)) := by omega
      simp only [hr, if_false]
      congr 1
      omega
  · simp only [hz, if_false]
    have hn : ((z.toNat : Int)) ≤ 2 ^ 63 - 1 := by omega
    rw [goAtoiChars_natDigits z.toNat hn]
    congr 1
    omega

lemma splitOnChar_of_not_mem (sep : Char) (a : List Char) (h : sep ∉ a) :
    splitOnChar sep a = [a] := by
  induction a with
  | nil => rfl
  | cons c cs ih =>
    have hc : c ≠ sep := fun hc => h (hc ▸ List.mem_cons_self c cs)
    have hcs : sep ∉ cs := fun hm => h (List.mem_cons_of_mem c hm)
    simp only [splitOnChar, hc, if_false, ih hcs]

lemma splitOnChar_append_sep (sep : Char) (a b : List Char) (h : sep ∉ a) :
    splitOnChar sep (a ++ sep :: b) = a :: splitOnChar sep b := by
  induction a with
  | nil => simp [splitOnChar]
  | cons c cs ih =>
    have hc : c ≠ sep := fun hc => h (hc ▸ List.mem_cons_self c cs)
    have hcs : sep ∉ cs := fun hm => h (List.mem_cons_of_mem c hm)
    simp only [List.cons_append, splitOnChar, hc, if_false, List.append_eq, ih hcs]

lemma splitOnChar_flatRange (mn mx cnt : Int) :
    splitOnChar '/' (flatRange mn mx cnt).data = [intChars mn, intChars mx, intChars cnt] := by
  show splitOnChar '/' (intChars mn ++ '/' :: (intChars mx ++ '/' :: intChars cnt)) = _
  rw [splitOnChar_append_sep '/' _ _ (sep_not_mem_intChars mn),
      splitOnChar_append_sep '/' _ _ (sep_not_mem_intChars mx),
      splitOnChar_of_not_mem '/' _ (sep_not_mem_intChars cnt)]

lemma toInt32_of_range (z : Int) (h1 : -(2 ^ 31) ≤ z) (h2 : z < 2 ^ 31) : toInt32 z = z := by
  unfold toInt32
  omega

end ClusterTurndown

namespace ClusterTurndown

/-! ## Claim theorems -/

/-- Claim C1 (code bug): the claim says `Decode("garbage")` returns the
sentinel triple `(-1, -1, -1)` and never raises.  In the code,
`strings.Split("garbage", "/")` has a single field, so the unchecked read
of `values[2]` panics with an index-out-of-range; the embedding returns
`none` (the panic) rather than `some (-1, -1, -1)`. -/
theorem expandRange_garbage_panics : expandRange "garbage" = none := by decide

/-- Claim C2: round-trip of the capacity codec — for every 32-bit triple
`(mn, mx, cnt)`, including zero and negative values,
`expandRange (flatRange mn mx cnt)` returns exactly `(mn, mx, cnt)`. -/
theorem decode_encode_roundtrip (mn mx cnt : Int)
    (hmn1 : -(2 ^ 31) ≤ mn) (hmn2 : mn < 2 ^ 31)
    (hmx1 : -(2 ^ 31) ≤ mx) (hmx2 : mx < 2 ^ 31)
    (hcnt1 : -(2 ^ 31) ≤ cnt) (hcnt2 : cnt < 2 ^ 31) :
    expandRange (flatRange mn mx cnt) = some (mn, mx, cnt) := by
  have h0 := goAtoiChars_intChars mn (by omega) (by omega)
  have h1 := goAtoiChars_intChars mx (by omega) (by omega)
  have h2 := goAtoiChars_intChars cnt (by omega) (by omega)
  simp only [expandRange, splitOnChar_flatRange, h0, h1, h2, Option.getD_some]
  rw [toInt32_of_range mn hmn1 hmn2, toInt32_of_range mx hmx1 hmx2,
      toInt32_of_range cnt hcnt1 hcnt2]

/-- Witness for C2: the round trip at the extreme triple
`(-2147483648, 2147483647, -1)`. -/
theorem decode_encode_roundtrip_witness :
    (-(2 ^ 31) ≤ (-2147483648 : Int) ∧ (-2147483648 : Int) < 2 ^ 31 ∧
      -(2 ^ 31) ≤ (2147483647 : Int) ∧ (2147483647 : Int) < 2 ^ 31 ∧
      -(2 ^ 31) ≤ (-1 : Int) ∧ (-1 : Int) < 2 ^ 31) ∧
    expandRange (flatRange (-2147483648) 2147483647 (-1)) =
      some (-2147483648, 2147483647, -1) :=
  ⟨by norm_num,
   decode_encode_roundtrip (-2147483648) 2147483647 (-1)
     (by norm_num) (by norm_num) (by norm_num) (by norm_num) (by norm_num) (by norm_num)⟩

/-- Claim C3: asymmetric fallback in `expandRange` on a three-field input —
if the `count` field fails to parse the whole decode returns the sentinel
`(-1, -1, -1)` with no partial result; if only `min` (resp. only `max`)
fails to parse while `count` parses, that field independently takes the
value of `count` and the other parsed field is kept; in particular
`Decode("/50/3") = (3, 50, 3)`. -/
theorem expandRange_count_first_fallback :
    (∀ (v0 v1 v2 : List Char) (rest : List (List Char)) (s : String),
        splitOnChar '/' s.data = v0 :: v1 :: v2 :: rest →
        goAtoiChars v2 = none →
        expandRange s = some (-1, -1, -1))
    ∧ (∀ (v0 v1 v2 : List Char) (rest : List (List Char)) (s : String) (cnt mx : Int),
        splitOnChar '/' s.data = v0 :: v1 :: v2 :: rest →
        goAtoiChars v2 = some cnt →
        goAtoiChars v0 = none →
        goAtoiChars v1 = some mx →
        expandRange s = some (toInt32 cnt, toInt32 mx, toInt32 cnt))
    ∧ (∀ (v0 v1 v2 : List Char) (rest : List (List Char)) (s : String) (cnt mn : Int),
        splitOnChar '/' s.data = v0 :: v1 :: v2 :: rest →
        goAtoiChars v2 = some cnt →
        goAtoiChars v0 = some mn →
        goAtoiChars v1 = none →
        expandRange s = some (toInt32 mn, toInt32 cnt, toInt32 cnt))
    ∧ expandRange "/50/3" = some (3, 50, 3) := by
  refine ⟨?_, ?_, ?_, by decide⟩
  · intro v0 v1 v2 rest s hsplit hcnt
    simp only [expandRange, hsplit, hcnt]
  · intro v0 v1 v2 rest s cnt mx hsplit hcnt h0 h1
    simp only [expandRange, hsplit, hcnt, h0, h1, Option.getD_none, Option.getD_some]
  · intro v0 v1 v2 rest s cnt mn hsplit hcnt h0 h1
    simp only [expandRange, hsplit, hcnt, h0, h1, Option.getD_none, Option.getD_some]

/-- Witness for C3: the three fallback behaviours at concrete inputs. -/
theorem expandRange_count_first_fallback_witness :
    expandRange "a/b/c" = some (-1, -1, -1)
    ∧ expandRange "x/50/3" = some (toInt32 3, toInt32 50, toInt32 3)
    ∧ expandRange "10/y/3" = some (toInt32 10, toInt32 3, toInt32 3) :=
  ⟨expandRange_count_first_fallback.1 ['a'] ['b'] ['c'] [] "a/b/c" (by decide) (by decide),
   expandRange_count_first_fallback.2.1 ['x'] ['5', '0'] ['3'] [] "x/50/3" 3 50
     (by decide) (by decide) (by decide) (by decide),
   expandRange_count_first_fallback.2.2.1 ['1', '0'] ['y'] ['3'] [] "10/y/3" 3 10
     (by decide) (by decide) (by decide) (by decide)⟩

/-- Claim C4: `SetNodePoolSizes` is strictly sequential and the first
resize or tag-write failure aborts the batch — for pools `[A, B, C]` where
resizing `B` fails with error `e`, `A` is resized and marked, `B`'s resize
is attempted and `e` is returned, `C` receives no provider calls, and no
rollback of `A` happens (the trace is exactly the three calls shown). -/
theorem setNodePoolSizes_aborts_on_first_failure
    (resp : Responder) (A B C : NodePool) (size : Int) (e : String)
    (hA1 : resp (PCall.updateSize A.name size) = none)
    (hA2 : resp (PCall.createOrUpdateTags A.name false
      [(EKSNodeGroupPreviousKey, flatRange A.minNodes A.maxNodes A.nodeCount)]) = none)
    (hB : resp (PCall.updateSize B.name size) = some e) :
    SetNodePoolSizes resp [A, B, C] size =
      (some e, [PCall.updateSize A.name size,
                PCall.createOrUpdateTags A.name false
                  [(EKSNodeGroupPreviousKey, flatRange A.minNodes A.maxNodes A.nodeCount)],
                PCall.updateSize B.name size]) := by
  simp [SetNodePoolSizes, setLoop, hA1, hA2, hB]

/-- Witness for C4 with concrete pools and a provider failing `B`'s resize. -/
theorem setNodePoolSizes_aborts_on_first_failure_witness :
    (respFailB (PCall.updateSize poolA.name 0) = none ∧
     respFailB (PCall.createOrUpdateTags poolA.name false
       [(EKSNodeGroupPreviousKey, flatRange poolA.minNodes poolA.maxNodes poolA.nodeCount)]) = none ∧
     respFailB (PCall.updateSize poolB.name 0) = some "boom") ∧
    SetNodePoolSizes respFailB [poolA, poolB, poolC] 0 =
      (some "boom", [PCall.updateSize poolA.name 0,
                     PCall.createOrUpdateTags poolA.name false
                       [(EKSNodeGroupPreviousKey,
                         flatRange poolA.minNodes poolA.maxNodes poolA.nodeCount)],
                     PCall.updateSize poolB.name 0]) :=
  ⟨⟨by decide, by decide, by decide⟩,
   setNodePoolSizes_aborts_on_first_failure respFailB poolA poolB poolC 0 "boom"
     (by decide) (by decide) (by decide)⟩

/-- Claim C5: `ResetNodePoolSizes` skips, without aborting, a pool whose
tags lack the marker key, leaving it untouched; and for
`[A without marker, B with marker "1/5/2"]` it leaves `A` untouched,
resizes `B` to the decoded count `2`, deletes `B`'s marker tag, and
returns no error. -/
theorem resetNodePoolSizes_skip_and_restore
    (resp : Responder) (A B : NodePool) (rest : List NodePool)
    (hA : lookupTag A.tags EKSNodeGroupPreviousKey = none)
    (hB : lookupTag B.tags EKSNodeGroupPreviousKey = some "1/5/2")
    (h1 : resp (PCall.updateSize B.name 2) = none)
    (h2 : resp (PCall.deleteTags B.name [EKSNodeGroupPreviousKey]) = none) :
    ResetNodePoolSizes resp (A :: rest) = ResetNodePoolSizes resp rest
    ∧ ResetNodePoolSizes resp [A, B] =
        some (none, [PCall.updateSize B.name 2,
                     PCall.deleteTags B.name [EKSNodeGroupPreviousKey]]) := by
  have hdec : expandRange "1/5/2" = some (1, 5, 2) := by decide
  constructor
  · cases rest with
    | nil => simp [ResetNodePoolSizes, resetLoop, hA]
    | cons r rs => simp [ResetNodePoolSizes, resetLoop, hA]
  · simp [ResetNodePoolSizes, resetLoop, hA, hB, hdec, h1, h2]

/-- Witness for C5 with concrete pools and an all-succeeding provider. -/
theorem resetNodePoolSizes_skip_and_restore_witness :
    (lookupTag poolA.tags EKSNodeGroupPreviousKey = none ∧
     lookupTag poolMarked.tags EKSNodeGroupPreviousKey = some "1/5/2" ∧
     respAllOK (PCall.updateSize poolMarked.name 2) = none ∧
     respAllOK (PCall.deleteTags poolMarked.name [EKSNodeGroupPreviousKey]) = none) ∧
    (ResetNodePoolSizes respAllOK (poolA :: [poolMarked]) =
       ResetNodePoolSizes respAllOK [poolMarked]
     ∧ ResetNodePoolSizes respAllOK [poolA, poolMarked] =
         some (none, [PCall.updateSize poolMarked.name 2,
                      PCall.deleteTags poolMarked.name [EKSNodeGroupPreviousKey]])) :=
  ⟨⟨by decide, by decide, rfl, rfl⟩,
   resetNodePoolSizes_skip_and_restore respAllOK poolA poolMarked [poolMarked]
     (by decide) (by decide) rfl rfl⟩

/-- Claim C6: atomicity of restore on provider failure — when the resize
of a pool with a valid marker fails, `ResetNodePoolSizes` returns that
error immediately, the marker tag is not deleted (no `DeleteTags` call in
the trace), and no later pool receives any provider call; likewise a
tag-deletion failure aborts the whole batch with its error. -/
theorem resetNodePoolSizes_abort_on_provider_failure
    (resp resp' : Responder) (np : NodePool) (rest : List NodePool)
    (tagv : String) (mn mx cnt : Int) (e e' : String)
    (htag : lookupTag np.tags EKSNodeGroupPreviousKey = some tagv)
    (hdec : expandRange tagv = some (mn, mx, cnt))
    (hcnt : 0 ≤ cnt)
    (hfail : resp (PCall.updateSize np.name cnt) = some e)
    (hok : resp' (PCall.updateSize np.name cnt) = none)
    (hdel : resp' (PCall.deleteTags np.name [EKSNodeGroupPreviousKey]) = some e') :
    ResetNodePoolSizes resp (np :: rest) = some (some e, [PCall.updateSize np.name cnt])
    ∧ ResetNodePoolSizes resp' (np :: rest) =
        some (some e', [PCall.updateSize np.name cnt,
                        PCall.deleteTags np.name [EKSNodeGroupPreviousKey]]) := by
  have hc : ¬(cnt < 0) := by omega
  constructor
  · simp [ResetNodePoolSizes, resetLoop, htag, hdec, hc, hfail]
  · simp [ResetNodePoolSizes, resetLoop, htag, hdec, hc, hok, hdel]

/-- Witness for C6 with the marker `"1/5/2"` and providers failing the
resize resp. the tag deletion. -/
theorem resetNodePoolSizes_abort_on_provider_failure_witness :
    (lookupTag poolMarked.tags EKSNodeGroupPreviousKey = some "1/5/2" ∧
     expandRange "1/5/2" = some (1, 5, 2) ∧
     (0 : Int) ≤ 2 ∧
     respFailResize (PCall.updateSize poolMarked.name 2) = some "resize-fail" ∧
     respFailDelete (PCall.updateSize poolMarked.name 2) = none ∧
     respFailDelete (PCall.deleteTags poolMarked.name [EKSNodeGroupPreviousKey]) =
       some "delete-fail") ∧
    (ResetNodePoolSizes respFailResize (poolMarked :: [poolC]) =
       some (some "resize-fail", [PCall.updateSize poolMarked.name 2])
     ∧ ResetNodePoolSizes respFailDelete (poolMarked :: [poolC]) =
         some (some "delete-fail",
               [PCall.updateSize poolMarked.name 2,
                PCall.deleteTags poolMarked.name [EKSNodeGroupPreviousKey]])) :=
  ⟨⟨by decide, by decide, by decide, by decide, by decide, by decide⟩,
   resetNodePoolSizes_abort_on_provider_failure respFailResize respFailDelete poolMarked [poolC]
     "1/5/2" 1 5 2 "resize-fail" "delete-fail"
     (by decide) (by decide) (by decide) (by decide) (by decide) (by decide)⟩

/-- Claim C7: on an empty pool list both `SetNodePoolSizes` (any target
size) and `ResetNodePoolSizes` return success and issue zero provider
calls, for every provider behaviour. -/
theorem batch_ops_empty_noop (resp : Responder) (size : Int) :
    SetNodePoolSizes resp [] size = (none, []) ∧
    ResetNodePoolSizes resp [] = some (none, []) :=
  ⟨rfl, rfl⟩

/-- Claim C9: `expandRange` does not enforce the 32-bit wire format — the
count field `"4294967296"` (equal to `2 ^ 32`, outside `int32`) parses at
machine width and is truncated modulo `2 ^ 32` by the `int32` conversion,
so `Decode("0/0/4294967296") = (0, 0, 0)` instead of the sentinel. -/
theorem expandRange_no_int32_wire_check :
    goAtoi "4294967296" = some 4294967296 ∧
    toInt32 4294967296 = 0 ∧
    expandRange "0/0/4294967296" = some (0, 0, 0) :=
  ⟨by decide, by decide, by decide⟩

/-- Claim C10: `ResetNodePoolSizes` skips (no resize, marker left in
place, iteration continues) every pool whose marker decodes to a negative
count, even when the marker parsed successfully — the all-negative marker
with fields `"-5"` decodes to `(-5, -5, -5)` — because the sentinel test is
exactly `count < 0`. -/
theorem resetNodePoolSizes_skip_negative_count
    (resp : Responder) (np : NodePool) (rest : List NodePool)
    (tagv : String) (mn mx cnt : Int)
    (htag : lookupTag np.tags EKSNodeGroupPreviousKey = some tagv)
    (hdec : expandRange tagv = some (mn, mx, cnt))
    (hneg : cnt < 0) :
    ResetNodePoolSizes resp (np :: rest) = ResetNodePoolSizes resp rest
    ∧ expandRange "-5/-5/-5" = some (-5, -5, -5) := by
  refine ⟨?_, by decide⟩
  cases rest with
  | nil => simp [ResetNodePoolSizes, resetLoop, htag, hdec, hneg]
  | cons r rs => simp [ResetNodePoolSizes, resetLoop, htag, hdec, hneg]

/-- Witness for C10 with the concrete all-negative marker. -/
theorem resetNodePoolSizes_skip_negative_count_witness :
    (lookupTag poolNegMarked.tags EKSNodeGroupPreviousKey = some "-5/-5/-5" ∧
     expandRange "-5/-5/-5" = some (-5, -5, -5) ∧
     (-5 : Int) < 0) ∧
    (ResetNodePoolSizes respAllOK (poolNegMarked :: [poolMarked]) =
       ResetNodePoolSizes respAllOK [poolMarked]
     ∧ expandRange "-5/-5/-5" = some (-5, -5, -5)) :=
  ⟨⟨by decide, by decide, by decide⟩,
   resetNodePoolSizes_skip_negative_count respAllOK poolNegMarked [poolMarked]
     "-5/-5/-5" (-5) (-5) (-5) (by decide) (by decide) (by decide)⟩

lemma setLoop_tag_write (resp : Responder) (size : Int) :
    ∀ (pools : List NodePool) (n : String) (ov : Bool) (tgs : List (String × String)),
      PCall.createOrUpdateTags n ov tgs ∈ (setLoop resp size pools).2 →
      ov = false ∧ ∃ np, np ∈ pools ∧ n = np.name ∧
        tgs = [(EKSNodeGroupPreviousKey, flatRange np.minNodes np.maxNodes np.nodeCount)] ∧
        resp (PCall.updateSize np.name size) = none ∧
        ∃ pre post, (setLoop resp size pools).2 =
          pre ++ PCall.updateSize np.name size ::
            PCall.createOrUpdateTags n ov tgs :: post := by
  intro pools
  induction pools with
  | nil =>
    intro n ov tgs h
    simp [setLoop] at h
  | cons np rest ih =>
    intro n ov tgs h
    cases h1 : resp (PCall.updateSize np.name size) with
    | some e =>
      simp [setLoop, h1] at h
    | none =>
      cases h2 : resp (PCall.createOrUpdateTags np.name false
          [(EKSNodeGroupPreviousKey, flatRange np.minNodes np.maxNodes np.nodeCount)]) with
      | some e =>
        simp [setLoop, h1, h2] at h
        obtain ⟨hn, hov, htgs⟩ := h
        subst hn; subst hov; subst htgs
        refine ⟨rfl, np, List.mem_cons_self np rest, rfl, rfl, h1, [], [], ?_⟩
        simp [setLoop, h1, h2]
      | none =>
        simp only [setLoop, h1, h2] at h
        rcases List.mem_cons.mp h with hc1 | h'
        · exact absurd hc1 (by simp)
        rcases List.mem_cons.mp h' with hc2 | hmem
        · simp only [PCall.createOrUpdateTags.injEq] at hc2
          obtain ⟨hn, hov, htgs⟩ := hc2
          subst hn; subst hov; subst htgs
          refine ⟨rfl, np, List.mem_cons_self np rest, rfl, rfl, h1, [],
            (setLoop resp size rest).2, ?_⟩
          simp [setLoop, h1, h2]
        · obtain ⟨hov, np', hmem', hn, htgs, hresp, pre, post, htrace⟩ := ih n ov tgs hmem
          refine ⟨hov, np', List.mem_cons_of_mem np hmem', hn, htgs, hresp,
            PCall.updateSize np.name size ::
              PCall.createOrUpdateTags np.name false
                [(EKSNodeGroupPreviousKey, flatRange np.minNodes np.maxNodes np.nodeCount)] :: pre,
            post, ?_⟩
          simp [setLoop, h1, h2, htrace]

/-- Claim C8: per-pool step order in `SetNodePoolSizes` — every marker
write in the call trace carries the non-overwrite flag (`overwrite =
false`) and the marker computed from the pool's pre-resize
min/max/count fields, and sits immediately after the successful resize
call of the same pool; no tag write appears for a pool whose resize
failed. -/
theorem setNodePoolSizes_tag_write_discipline
    (resp : Responder) (pools : List NodePool) (size : Int)
    (n : String) (ov : Bool) (tgs : List (String × String))
    (hmem : PCall.createOrUpdateTags n ov tgs ∈ (SetNodePoolSizes resp pools size).2) :
    ov = false ∧ ∃ np, np ∈ pools ∧ n = np.name ∧
      tgs = [(EKSNodeGroupPreviousKey, flatRange np.minNodes np.maxNodes np.nodeCount)] ∧
      resp (PCall.updateSize np.name size) = none ∧
      ∃ pre post, (SetNodePoolSizes resp pools size).2 =
        pre ++ PCall.updateSize np.name size ::
          PCall.createOrUpdateTags n ov tgs :: post := by
  cases pools with
  | nil => simp [SetNodePoolSizes] at hmem
  | cons p ps =>
    have hs : SetNodePoolSizes resp (p :: ps) size = setLoop resp size (p :: ps) := rfl
    rw [hs] at hmem ⊢
    exact setLoop_tag_write resp size (p :: ps) n ov tgs hmem

/-- Witness for C8: the tag write of a one-pool batch. -/
theorem setNodePoolSizes_tag_write_discipline_witness :
    (PCall.createOrUpdateTags "A" false [(EKSNodeGroupPreviousKey, "1/5/3")] ∈
       (SetNodePoolSizes respAllOK [poolA] 0).2) ∧
    (false = false ∧ ∃ np, np ∈ [poolA] ∧ "A" = np.name ∧
      [(EKSNodeGroupPreviousKey, "1/5/3")] =
        [(EKSNodeGroupPreviousKey, flatRange np.minNodes np.maxNodes np.nodeCount)] ∧
      respAllOK (PCall.updateSize np.name 0) = none ∧
      ∃ pre post, (SetNodePoolSizes respAllOK [poolA] 0).2 =
        pre ++ PCall.updateSize np.name 0 ::
          PCall.createOrUpdateTags "A" false [(EKSNodeGroupPreviousKey, "1/5/3")] :: post) := by
  have hfr : flatRange (1 : Int) 5 3 = "1/5/3" := by
    simp [flatRange, intChars, natDigits, natToDigitChar]
  have hmem : PCall.createOrUpdateTags "A" false [(EKSNodeGroupPreviousKey, "1/5/3")] ∈
      (SetNodePoolSizes respAllOK [poolA] 0).2 := by
    simp [SetNodePoolSizes, setLoop, respAllOK, poolA, hfr]
  exact ⟨hmem,
    setNodePoolSizes_tag_write_discipline respAllOK [poolA] 0 "A" false
      [(EKSNodeGroupPreviousKey, "1/5/3")] hmem⟩

end ClusterTurndown
